import Mathlib

/-!
Verification of the instance-selection ("autotuning") protocol of the
batchnorm inference client example (`client_example/13_batchnorm/
batchnorm_infer_nhwc.cpp`).  The example builds one Argument per registered
device-operation instance, filters by `IsSupportedArgument`, profiles every
supported instance with timing enabled, keeps the running strict minimum of
the measured times, and finally re-builds the Argument for the best instance
and runs it once with timing disabled.

The embedding below transcribes `main` into pure Lean functions.  Elapsed
times and derived throughputs are modelled as rationals; the per-instance
verdicts of the (opaque, library-provided) `IsSupportedArgument` calls and
the measured elapsed times are inputs of the model, one `Candidate` per
`op_ptrs[i]`.  The two `IsSupportedArgument` call sites (profiling phase and
production phase) are modelled as two separate observable verdicts so that a
profiling/production mismatch is expressible.  Besides the final program
state the model produces the trace of observable events (support checks,
kernel launches, profile records) and the process exit code.
-/

namespace BatchnormInfer

/-- Problem shape fixed in `main`: `xyLengths{16, 8, 128, 256}`. -/
def xyLengths : List Int := [16, 8, 128, 256]

/-- `xyStrides{8 * 128 * 256, 128 * 256, 256, 1}`. -/
def xyStrides : List Int := [8 * 128 * 256, 128 * 256, 256, 1]

/-- `scaleBiasMeanVarLengths{256}` (rank `Rank - NumBatchNormReduceDim = 1`). -/
def scaleBiasMeanVarLengths : List Int := [256]

/-- `scaleBiasMeanVarStrides{1}`. -/
def scaleBiasMeanVarStrides : List Int := [1]

/-- `reduceDims{0, 1, 2}`. -/
def reduceDims : List Nat := [0, 1, 2]

/-- `invariantDims{3}`. -/
def invariantDims : List Nat := [3]

/-- `std::accumulate(xyLengths.begin(), xyLengths.end(), 1, multiplies)`. -/
def numXYElement : Int := xyLengths.foldl (· * ·) 1

/-- `std::accumulate(scaleBiasMeanVarLengths..., 1, multiplies)`. -/
def numScaleBiasMeanVarElement : Int := scaleBiasMeanVarLengths.foldl (· * ·) 1

/-- `sizeof(float)`: all five data types of the example are `float`. -/
def sizeofXDataType : Int := 4

def sizeofYDataType : Int := 4

def sizeofScaleDataType : Int := 4

def sizeofBiasDataType : Int := 4

def sizeofMeanVarDataType : Int := 4

/-- `const double epsilon = std::numeric_limits<float>::epsilon()` = 2^-23. -/
def epsilonVal : ℚ := 1 / 2 ^ 23

/-- `std::numeric_limits<float>::max()` = (2 - 2^-23) * 2^127, the initial
value of `best_ave_time`. -/
def fltMax : ℚ := 2 ^ 128 - 2 ^ 104

/-- The `num_bytes` expression of the profiling loop:
`numXYElement * (sizeof(XDataType) + sizeof(YDataType)) +
 numScaleBiasMeanVarElement * (sizeof(ScaleDataType) + sizeof(BiasDataType) +
 sizeof(MeanVarDataType) + sizeof(MeanVarDataType))`, as a rational so it can
enter the throughput division. -/
def numBytes : ℚ :=
  (numXYElement * (sizeofXDataType + sizeofYDataType) +
    numScaleBiasMeanVarElement *
      (sizeofScaleDataType + sizeofBiasDataType +
        sizeofMeanVarDataType + sizeofMeanVarDataType) : Int)

/-- The loop of lines 73-80: starting from the zero-initialised
`aligned_scaleBiasMeanVarStrides{0}` (a `std::array<ck::index_t, Rank>`,
i.e. all four entries zero), walk `invariantDims` together with the counter
`i` into `scaleBiasMeanVarStrides` and assign
`aligned[dim] = scaleBiasMeanVarStrides[i]`. -/
def applyInvariantDims : List Nat → List Int → List Int → List Int
  | [], _, acc => acc
  | _ :: _, [], acc => acc
  | d :: ds, s :: ss, acc => applyInvariantDims ds ss (acc.set d s)

/-- `aligned_scaleBiasMeanVarStrides` after the alignment loop, for arbitrary
invariant-dimension and stride arrays (rank fixed at 4 as in the source). -/
def alignedStridesOf (invDims : List Nat) (strides : List Int) : List Int :=
  applyInvariantDims invDims strides (List.replicate 4 0)

/-- The concrete `aligned_scaleBiasMeanVarStrides` of this program. -/
def aligned_scaleBiasMeanVarStrides : List Int :=
  alignedStridesOf invariantDims scaleBiasMeanVarStrides

/-- Device buffer handles allocated by `main` (`hipMalloc` results), opaque
to the selection protocol; one handle per `SimpleDeviceMem`. -/
structure DeviceBuffers where
  x : Nat
  y : Nat
  scale : Nat
  bias : Nat
  mean : Nat
  variance : Nat
deriving DecidableEq, Repr

/-- The data handed to `MakeArgumentPointer`: lengths, the five input stride
arrays, the output stride array, the five input buffers, the output buffer,
and the `Normalize{epsilon}` scalar parameter. -/
structure BNArgument where
  lengths : List Int
  inputStrides : List (List Int)
  outputStrides : List (List Int)
  inputBuffers : List Nat
  outputBuffers : List Nat
  eps : ℚ
deriving DecidableEq, Repr

/-- The Argument built in the profiling loop (lines 106-119):
`MakeArgumentPointer(xyLengths, {xyStrides, aligned, aligned, aligned,
aligned}, {xyStrides}, {x, mean, variance, scale, bias}, {y},
Normalize{epsilon})`. -/
def profilingArgument (b : DeviceBuffers) : BNArgument where
  lengths := xyLengths
  inputStrides := [xyStrides, aligned_scaleBiasMeanVarStrides,
    aligned_scaleBiasMeanVarStrides, aligned_scaleBiasMeanVarStrides,
    aligned_scaleBiasMeanVarStrides]
  outputStrides := [xyStrides]
  inputBuffers := [b.x, b.mean, b.variance, b.scale, b.bias]
  outputBuffers := [b.y]
  eps := epsilonVal

/-- The Argument re-built in the execution phase for the best instance
(lines 163-176): `MakeArgumentPointer(xyLengths, {xyStrides, aligned,
aligned, aligned, aligned}, {xyStrides}, {x, mean, variance, scale, bias},
{y}, Normalize{epsilon})`. -/
def executionArgument (b : DeviceBuffers) : BNArgument where
  lengths := xyLengths
  inputStrides := [xyStrides, aligned_scaleBiasMeanVarStrides,
    aligned_scaleBiasMeanVarStrides, aligned_scaleBiasMeanVarStrides,
    aligned_scaleBiasMeanVarStrides]
  outputStrides := [xyStrides]
  inputBuffers := [b.x, b.mean, b.variance, b.scale, b.bias]
  outputBuffers := [b.y]
  eps := epsilonVal

/-- One registered device-operation instance (`op_ptrs[i]`), reduced to its
behaviour observable by `main`: its `GetTypeString()` name, the verdict of
`IsSupportedArgument` on the profiling-phase Argument (`sup1`), the verdict
on the production-phase Argument (`sup2`, kept separate so that a
profiling/production mismatch is expressible), and the elapsed time a timed
`Run` reports. -/
structure Candidate where
  name : String
  sup1 : Bool
  sup2 : Bool
  time : ℚ
deriving DecidableEq, Repr

/-- Which of the two phases an observable event belongs to. -/
inductive Phase where
  | profiling
  | production
deriving DecidableEq, Repr

/-- Observable events of one program execution: an `IsSupportedArgument`
call with its verdict, an `invoker_ptr->Run(argument, StreamConfig{nullptr,
timingEnabled})` call, and the recording of a per-candidate profile line
(`ave_time`, `gb_per_sec`). -/
inductive Event where
  | check (ph : Phase) (idx : Nat) (verdict : Bool)
  | launch (ph : Phase) (idx : Nat) (timingEnabled : Bool)
  | profile (idx : Nat) (ave : ℚ) (gb : ℚ)
deriving DecidableEq, Repr

/-- The mutable selection state of `main`: `found`, `best_op_id` (an `int`
initialised to -1), `best_op_name`, `best_ave_time`, `best_gb_per_sec`. -/
structure SelState where
  found : Bool
  best_op_id : Int
  best_op_name : String
  best_ave_time : ℚ
  best_gb_per_sec : ℚ
deriving DecidableEq, Repr

/-- The state just before the profiling loop (lines 93-97). -/
def initState : SelState :=
  { found := false, best_op_id := -1, best_op_name := "",
    best_ave_time := fltMax, best_gb_per_sec := 0 }

/-- The profiling loop (lines 102-151): for each instance in registration
order, check support; if unsupported, log and continue; if supported, run
timed, derive `gb_per_sec = num_bytes / 1.E6 / ave_time`, and update the
running best on strict improvement `ave_time < best_ave_time`. Returns the
final selection state and the emitted event trace. -/
def selLoop (nb : ℚ) : List Candidate → Nat → SelState → SelState × List Event
  | [], _, s => (s, [])
  | c :: cs, i, s =>
    if c.sup1 then
      let ave := c.time
      let gb := nb / 1000000 / ave
      let s' := if ave < s.best_ave_time then
          { found := true, best_op_id := (i : Int), best_op_name := c.name,
            best_ave_time := ave, best_gb_per_sec := gb }
        else s
      let r := selLoop nb cs (i + 1) s'
      (r.1, Event.check Phase.profiling i true ::
        Event.launch Phase.profiling i true :: Event.profile i ave gb :: r.2)
    else
      let r := selLoop nb cs (i + 1) s
      (r.1, Event.check Phase.profiling i false :: r.2)

/-- The execution phase (lines 153-186): only entered when `found`; fetches
`op_ptrs[best_op_id]`, rebuilds the Argument, re-checks
`IsSupportedArgument`, and runs untimed (`StreamConfig{nullptr, false}`)
only when the re-check passes.  There is no `else` branch on the re-check:
a failed re-check emits no further event. -/
def execPhase (cs : List Candidate) (s : SelState) : List Event :=
  if s.found then
    match cs.get? s.best_op_id.toNat with
    | some c =>
      if c.sup2 then
        [Event.check Phase.production s.best_op_id.toNat true,
          Event.launch Phase.production s.best_op_id.toNat false]
      else
        [Event.check Phase.production s.best_op_id.toNat false]
    | none => []
  else []

/-- The whole of `main` after buffer setup: profiling loop, then execution
phase, then `return 0`.  Result: final selection state, full event trace,
and process exit code (the source returns 0 on every path). -/
def mainRun (cs : List Candidate) : SelState × List Event × Int :=
  let r := selLoop numBytes cs 0 initState
  (r.1, r.2 ++ execPhase cs r.1, 0)

/-- Trace check: every `launch` event has `timingEnabled` exactly when it
belongs to the profiling phase. -/
def timingOk : List Event → Bool
  | [] => true
  | Event.launch ph _ t :: rest => (t == (ph == Phase.profiling)) && timingOk rest
  | _ :: rest => timingOk rest

/-- Trace check: every `launch` event is immediately preceded by a `check`
event, in the same phase and on the same candidate index, whose verdict is
true. -/
def guardedAux : Option (Phase × Nat) → List Event → Bool
  | _, [] => true
  | _, Event.check ph i v :: rest =>
    guardedAux (if v then some (ph, i) else none) rest
  | last, Event.launch ph i _ :: rest =>
    (last == some (ph, i)) && guardedAux none rest
  | _, Event.profile _ _ _ :: rest => guardedAux none rest

/-- `guardedAux` started with no pending successful check. -/
def guardedLaunches (tr : List Event) : Bool :=
  guardedAux none tr

/-- Trace check: the trace contains no `launch` event at all. -/
def noLaunches : List Event → Bool
  | [] => true
  | Event.launch _ _ _ :: _ => false
  | _ :: rest => noLaunches rest

/-- Trace check: the trace contains no production-phase `launch` event. -/
def noProductionLaunch : List Event → Bool
  | [] => true
  | Event.launch Phase.production _ _ :: _ => false
  | _ :: rest => noProductionLaunch rest

/-- Modelled from the spec: the invoker's `Run` implementation is library
code outside this example's source, and per the spec's error taxonomy a
profiling-time `Run` may fail "at the device-submission or synchronization
step" (LaunchFailure).  A candidate's timed `Run` outcome is therefore an
`Except Unit ℚ`: elapsed time on success, `Except.error ()` when
LaunchFailure is raised. -/
structure CandidateE where
  name : String
  sup1 : Bool
  runResult : Except Unit ℚ
deriving Repr

/-- The profiling loop of lines 102-151 with a fallible `Run`.  The source
loop wraps `invoker_ptr->Run` in no handler of any kind, so a raised
LaunchFailure propagates out of the loop and aborts it; the error
short-circuiting below transcribes that propagation. -/
def selLoopE (nb : ℚ) :
    List CandidateE → Nat → SelState → Except Unit (SelState × List Event)
  | [], _, s => Except.ok (s, [])
  | c :: cs, i, s =>
    if c.sup1 then
      match c.runResult with
      | Except.error e => Except.error e
      | Except.ok ave =>
        let gb := nb / 1000000 / ave
        let s' := if ave < s.best_ave_time then
            { found := true, best_op_id := (i : Int), best_op_name := c.name,
              best_ave_time := ave, best_gb_per_sec := gb }
          else s
        match selLoopE nb cs (i + 1) s' with
        | Except.error e => Except.error e
        | Except.ok r =>
          Except.ok (r.1, Event.check Phase.profiling i true ::
            Event.launch Phase.profiling i true ::
            Event.profile i ave gb :: r.2)
    else
      match selLoopE nb cs (i + 1) s with
      | Except.error e => Except.error e
      | Except.ok r =>
        Except.ok (r.1, Event.check Phase.profiling i false :: r.2)

/-- Three stub candidates with measured times [5.0, 3.2, 3.2] ms, all
supported in both phases (spec's end-to-end scenario). -/
def demoCandidates : List Candidate :=
  [{ name := "op0", sup1 := true, sup2 := true, time := 5 },
   { name := "op1", sup1 := true, sup2 := true, time := 16 / 5 },
   { name := "op2", sup1 := true, sup2 := true, time := 16 / 5 }]

/-- Two stub candidates, both rejecting the Argument. -/
def unsupportedCandidates : List Candidate :=
  [{ name := "op0", sup1 := false, sup2 := false, time := 5 },
   { name := "op1", sup1 := false, sup2 := false, time := 3 }]

/-- A single candidate supported at profiling whose production re-check
fails (spec's mismatch scenario). -/
def mismatchCandidates : List Candidate :=
  [{ name := "op0", sup1 := true, sup2 := false, time := 2 }]

/-- Candidate 0's profiling `Run` raises LaunchFailure; candidate 1 is
supported and would report 1 ms. -/
def launchFailCandidates : List CandidateE :=
  [{ name := "op0", sup1 := true, runResult := Except.error () },
   { name := "op1", sup1 := true, runResult := Except.ok 1 }]

end BatchnormInfer

namespace BatchnormInfer

lemma selLoop_characterization (nb : ℚ) (cs : List Candidate) :
    ∀ (i : Nat) (s : SelState),
      ((selLoop nb cs i s).1 = s ∧
        ∀ j c, cs.get? j = some c → c.sup1 = true → s.best_ave_time ≤ c.time) ∨
      (∃ j c, cs.get? j = some c ∧ c.sup1 = true ∧ c.time < s.best_ave_time ∧
        (selLoop nb cs i s).1.found = true ∧
        (selLoop nb cs i s).1.best_op_id = ((i + j : Nat) : Int) ∧
        (selLoop nb cs i s).1.best_ave_time = c.time ∧
        (selLoop nb cs i s).1.best_op_name = c.name ∧
        (selLoop nb cs i s).1.best_gb_per_sec = nb / 1000000 / c.time ∧
        (∀ j' c', cs.get? j' = some c' → c'.sup1 = true → c.time ≤ c'.time) ∧
        (∀ j' c', j' < j → cs.get? j' = some c' → c'.sup1 = true →
          c.time < c'.time)) := by
  induction cs with
  | nil =>
    intro i s
    left
    refine ⟨rfl, fun j c h _ => ?_⟩
    simp [List.get?] at h
  | cons c0 cs ih =>
    intro i s
    by_cases hc : c0.sup1 = true
    · by_cases hlt : c0.time < s.best_ave_time
      · have hsel : (selLoop nb (c0 :: cs) i s).1 =
            (selLoop nb cs (i + 1)
              { found := true, best_op_id := (i : Int), best_op_name := c0.name,
                best_ave_time := c0.time,
                best_gb_per_sec := nb / 1000000 / c0.time }).1 := by
          simp [selLoop, hc, hlt]
        rcases ih (i + 1)
            { found := true, best_op_id := (i : Int), best_op_name := c0.name,
              best_ave_time := c0.time,
              best_gb_per_sec := nb / 1000000 / c0.time } with
          ⟨heq, hbound⟩ | ⟨j, c, hget, hsup, hlt2, hf, hid, ht, hn, hg, hle, hstrict⟩
      
        · right
          refine ⟨0, c0, rfl, hc, hlt, ?_, ?_, ?_, ?_, ?_, ?_, ?_⟩
          · rw [hsel, heq]
          · rw [hsel, heq]; simp
          · rw [hsel, heq]
          · rw [hsel, heq]
          · rw [hsel, heq]
          · intro j' c' hj' hs'
            cases j' with
            | zero => simp at hj'; subst hj'; exact le_refl _
            | succ j'' => exact hbound j'' c' hj' hs'
          · intro j' c' hj'; omega
        · right
          refine ⟨j + 1, c, hget, hsup, lt_trans hlt2 hlt, ?_, ?_, ?_, ?_, ?_, ?_, ?_⟩
          · rw [hsel]; exact hf
          · rw [hsel, hid]; congr 1; omega
          · rw [hsel]; exact ht
          · rw [hsel]; exact hn
          · rw [hsel]; exact hg
          · intro j' c' hj' hs'
            cases j' with
            | zero =>
              simp at hj'; subst hj'; exact le_of_lt hlt2
            | succ j'' => exact hle j'' c' hj' hs'
          · intro j' c' hj'lt hj' hs'
            cases j' with
            | zero => simp at hj'; subst hj'; exact hlt2
            | succ j'' => exact hstrict j'' c' (by omega) hj' hs'
      · have hsel : (selLoop nb (c0 :: cs) i s).1 =
            (selLoop nb cs (i + 1) s).1 := by
          simp [selLoop, hc, hlt]
        rcases ih (i + 1) s with
          ⟨heq, hbound⟩ | ⟨j, c, hget, hsup, hlt2, hf, hid, ht, hn, hg, hle, hstrict⟩
        · left
          refine ⟨by rw [hsel, heq], ?_⟩
          intro j' c' hj' hs'
          cases j' with
          | zero => simp at hj'; subst hj'; exact not_lt.mp hlt
          | succ j'' => exact hbound j'' c' hj' hs'
        · right
          refine ⟨j + 1, c, hget, hsup, hlt2, ?_, ?_, ?_, ?_, ?_, ?_, ?_⟩
          · rw [hsel]; exact hf
          · rw [hsel, hid]; congr 1; omega
          · rw [hsel]; exact ht
          · rw [hsel]; exact hn
          · rw [hsel]; exact hg
          · intro j' c' hj' hs'
            cases j' with
            | zero =>
              simp at hj'; subst hj'
              exact le_of_lt (lt_of_lt_of_le hlt2 (not_lt.mp hlt))
            | succ j'' => exact hle j'' c' hj' hs'
          · intro j' c' hj'lt hj' hs'
            cases j' with
            | zero =>
              simp at hj'; subst hj'
              exact lt_of_lt_of_le hlt2 (not_lt.mp hlt)
            | succ j'' => exact hstrict j'' c' (by omega) hj' hs'
    · have hsel : (selLoop nb (c0 :: cs) i s).1 =
          (selLoop nb cs (i + 1) s).1 := by
        simp [selLoop, hc]
      rcases ih (i + 1) s with
        ⟨heq, hbound⟩ | ⟨j, c, hget, hsup, hlt2, hf, hid, ht, hn, hg, hle, hstrict⟩
      · left
        refine ⟨by rw [hsel, heq], ?_⟩
        intro j' c' hj' hs'
        cases j' with
        | zero => simp at hj'; subst hj'; exact absurd hs' hc
        | succ j'' => exact hbound j'' c' hj' hs'
      · right
        refine ⟨j + 1, c, hget, hsup, hlt2, ?_, ?_, ?_, ?_, ?_, ?_, ?_⟩
        · rw [hsel]; exact hf
        · rw [hsel, hid]; congr 1; omega
        · rw [hsel]; exact ht
        · rw [hsel]; exact hn
        · rw [hsel]; exact hg
        · intro j' c' hj' hs'
          cases j' with
          | zero => simp at hj'; subst hj'; exact absurd hs' hc
          | succ j'' => exact hle j'' c' hj' hs'
        · intro j' c' hj'lt hj' hs'
          cases j' with
          | zero => simp at hj'; subst hj'; exact absurd hs' hc
          | succ j'' => exact hstrict j'' c' (by omega) hj' hs'

end BatchnormInfer

namespace BatchnormInfer

/-- C1: for every candidate list with at least one supported candidate (all
measured times being representable, i.e. below `FLT_MAX`, the initial value
of `best_ave_time`), the selection loop selects a supported candidate whose
elapsed time is minimal among all supported candidates, and any supported
candidate with a strictly smaller registration index has a strictly larger
time (first-seen minimal time wins, since the running-minimum comparison is
strict less-than). -/
theorem selection_picks_first_min (cs : List Candidate)
    (hne : ∃ c, c ∈ cs ∧ c.sup1 = true)
    (hsmall : ∀ c ∈ cs, c.sup1 = true → c.time < fltMax) :
    ∃ j c, cs.get? j = some c ∧ c.sup1 = true ∧
      (mainRun cs).1.found = true ∧
      (mainRun cs).1.best_op_id = (j : Int) ∧
      (mainRun cs).1.best_ave_time = c.time ∧
      (mainRun cs).1.best_op_name = c.name ∧
      (∀ j' c', cs.get? j' = some c' → c'.sup1 = true → c.time ≤ c'.time) ∧
      (∀ j' c', j' < j → cs.get? j' = some c' → c'.sup1 = true →
        c.time < c'.time) := by
  have hm : (mainRun cs).1 = (selLoop numBytes cs 0 initState).1 := rfl
  rcases selLoop_characterization numBytes cs 0 initState with
    ⟨_, hbound⟩ | ⟨j, c, hget, hsup, _, hf, hid, ht, hn, _, hle, hstrict⟩
  · exfalso
    obtain ⟨c, hc, hsupc⟩ := hne
    obtain ⟨j, hj⟩ := List.get?_of_mem hc
    have h1 : initState.best_ave_time ≤ c.time := hbound j c hj hsupc
    have h2 : c.time < fltMax := hsmall c hc hsupc
    have h3 : initState.best_ave_time = fltMax := rfl
    rw [h3] at h1
    exact absurd h1 (not_le.mpr h2)
  · refine ⟨j, c, hget, hsup, ?_, ?_, ?_, ?_, hle, hstrict⟩
    · rw [hm]; exact hf
    · rw [hm, hid]; simp
    · rw [hm]; exact ht
    · rw [hm]; exact hn

/-- Witness for C1 at the spec's end-to-end scenario: three supported
candidates with times [5.0, 3.2, 3.2]; candidate index 1 is selected, with
elapsed 3.2. -/
theorem selection_picks_first_min_witness :
    (∃ c, c ∈ demoCandidates ∧ c.sup1 = true) ∧
    (∀ c ∈ demoCandidates, c.sup1 = true → c.time < fltMax) ∧
    (∃ j c, demoCandidates.get? j = some c ∧ c.sup1 = true ∧
      (mainRun demoCandidates).1.found = true ∧
      (mainRun demoCandidates).1.best_op_id = (j : Int) ∧
      (mainRun demoCandidates).1.best_ave_time = c.time ∧
      (mainRun demoCandidates).1.best_op_name = c.name ∧
      (∀ j' c', demoCandidates.get? j' = some c' → c'.sup1 = true →
        c.time ≤ c'.time) ∧
      (∀ j' c', j' < j → demoCandidates.get? j' = some c' → c'.sup1 = true →
        c.time < c'.time)) ∧
    (mainRun demoCandidates).1.best_op_id = 1 ∧
    (mainRun demoCandidates).1.best_ave_time = 16 / 5 := by
  have h1 : ∃ c, c ∈ demoCandidates ∧ c.sup1 = true :=
    ⟨{ name := "op0", sup1 := true, sup2 := true, time := 5 },
      by simp [demoCandidates], rfl⟩
  have h2 : ∀ c ∈ demoCandidates, c.sup1 = true → c.time < fltMax := by
    intro c hc _
    simp [demoCandidates] at hc
    rcases hc with h | h | h <;> subst h <;> norm_num [fltMax]
  refine ⟨h1, h2, selection_picks_first_min demoCandidates h1 h2, ?_, ?_⟩
  · norm_num [mainRun, selLoop, demoCandidates, initState, fltMax, numBytes]
  · norm_num [mainRun, selLoop, demoCandidates, initState, fltMax, numBytes]

end BatchnormInfer

namespace BatchnormInfer

lemma selLoop_all_unsupported (nb : ℚ) (cs : List Candidate) :
    ∀ (i : Nat) (s : SelState), (∀ c ∈ cs, c.sup1 = false) →
      (selLoop nb cs i s).1 = s ∧ noLaunches (selLoop nb cs i s).2 = true := by
  induction cs with
  | nil => intro i s _; exact ⟨rfl, rfl⟩
  | cons c0 cs ih =>
    intro i s h
    have hc : c0.sup1 = false := h c0 (by simp)
    have hrest := ih (i + 1) s (fun c hc' => h c (by simp [hc']))
    constructor
    · simpa [selLoop, hc] using hrest.1
    · simpa [selLoop, hc, noLaunches] using hrest.2

/-- C3: with an empty candidate list, or one in which every candidate
rejects the Argument, the selection state stays at its initial value (no
best index, no best name, `found = false`), the trace contains no kernel
launch at all — the execution phase is never entered — and the program
still exits with code 0 (not an error). -/
theorem none_supported_no_execution (cs : List Candidate)
    (h : cs = [] ∨ ∀ c ∈ cs, c.sup1 = false) :
    (mainRun cs).1 = initState ∧
    noLaunches (mainRun cs).2.1 = true ∧
    (mainRun cs).2.2 = 0 := by
  have hall : ∀ c ∈ cs, c.sup1 = false := by
    rcases h with h | h
    · subst h; intro c hc; simp at hc
    · exact h
  have hsel := selLoop_all_unsupported numBytes cs 0 initState hall
  have hfound : (selLoop numBytes cs 0 initState).1.found = false := by
    rw [hsel.1]; rfl
  have hexec : execPhase cs (selLoop numBytes cs 0 initState).1 = [] := by
    simp [execPhase, hfound]
  have htr : (mainRun cs).2.1 = (selLoop numBytes cs 0 initState).2 := by
    show (selLoop numBytes cs 0 initState).2 ++
      execPhase cs (selLoop numBytes cs 0 initState).1 =
      (selLoop numBytes cs 0 initState).2
    rw [hexec, List.append_nil]
  exact ⟨hsel.1, by rw [htr]; exact hsel.2, rfl⟩

/-- Witness for C3: two candidates, both unsupported — initial state is
returned, no launch appears in the trace, exit code 0. -/
theorem none_supported_no_execution_witness :
    (unsupportedCandidates = [] ∨
      ∀ c ∈ unsupportedCandidates, c.sup1 = false) ∧
    ((mainRun unsupportedCandidates).1 = initState ∧
      noLaunches (mainRun unsupportedCandidates).2.1 = true ∧
      (mainRun unsupportedCandidates).2.2 = 0) := by
  have h : unsupportedCandidates = [] ∨
      ∀ c ∈ unsupportedCandidates, c.sup1 = false := by
    right
    intro c hc
    simp [unsupportedCandidates] at hc
    rcases hc with h | h <;> subst h <;> rfl
  exact ⟨h, none_supported_no_execution unsupportedCandidates h⟩

lemma guardedAux_none_mono (tr : List Event)
    (h : guardedAux none tr = true) : ∀ last, guardedAux last tr = true := by
  intro last
  cases tr with
  | nil => rfl
  | cons e rest =>
    cases e with
    | check ph i v => simpa [guardedAux] using h
    | launch ph i t => simp [guardedAux] at h
    | profile i a g => simpa [guardedAux] using h

lemma selLoop_trace_guarded (nb : ℚ) (cs : List Candidate) :
    ∀ (i : Nat) (s : SelState) (rest : List Event)
      (last : Option (Phase × Nat)), guardedAux none rest = true →
      guardedAux last ((selLoop nb cs i s).2 ++ rest) = true := by
  induction cs with
  | nil =>
    intro i s rest last h
    simpa [selLoop] using guardedAux_none_mono rest h last
  | cons c0 cs ih =>
    intro i s rest last h
    by_cases hc : c0.sup1 = true
    · simpa [selLoop, hc, guardedAux] using ih (i + 1) _ rest none h
    · simpa [selLoop, hc, guardedAux] using ih (i + 1) s rest none h

lemma execPhase_guarded (cs : List Candidate) (s : SelState) :
    guardedAux none (execPhase cs s) = true := by
  unfold execPhase
  by_cases hf : s.found = true
  · rw [if_pos hf]
    cases cs.get? s.best_op_id.toNat with
    | none => rfl
    | some c =>
      by_cases hs2 : c.sup2 = true
      · simp [hs2, guardedAux]
      · simp [hs2, guardedAux]
  · rw [if_neg hf]; rfl

/-- C4: in every execution of the selection-and-execute cycle, each launch
event (timed profiling run or untimed production run) is immediately
preceded by a successful `IsSupportedArgument` check of the same phase on
the same candidate index: `Run` is never reached on an Argument whose check
failed. -/
theorem launches_guarded_by_support (cs : List Candidate) :
    guardedLaunches (mainRun cs).2.1 = true := by
  have htr : (mainRun cs).2.1 = (selLoop numBytes cs 0 initState).2 ++
      execPhase cs (selLoop numBytes cs 0 initState).1 := rfl
  rw [guardedLaunches, htr]
  exact selLoop_trace_guarded numBytes cs 0 initState _ none
    (execPhase_guarded cs (selLoop numBytes cs 0 initState).1)

lemma selLoop_timingOk (nb : ℚ) (cs : List Candidate) :
    ∀ (i : Nat) (s : SelState), timingOk (selLoop nb cs i s).2 = true := by
  induction cs with
  | nil => intro i s; rfl
  | cons c0 cs ih =>
    intro i s
    by_cases hc : c0.sup1 = true
    · simpa [selLoop, hc, timingOk] using ih (i + 1) _
    · simpa [selLoop, hc, timingOk] using ih (i + 1) s

lemma execPhase_timingOk (cs : List Candidate) (s : SelState) :
    timingOk (execPhase cs s) = true := by
  unfold execPhase
  by_cases hf : s.found = true
  · rw [if_pos hf]
    cases cs.get? s.best_op_id.toNat with
    | none => rfl
    | some c =>
      by_cases hs2 : c.sup2 = true
      · simp [hs2, timingOk]
      · simp [hs2, timingOk]
  · rw [if_neg hf]; rfl

lemma timingOk_append (a b : List Event) :
    timingOk (a ++ b) = (timingOk a && timingOk b) := by
  induction a with
  | nil => simp [timingOk]
  | cons e rest ih =>
    cases e with
    | check ph i v => simpa [timingOk] using ih
    | launch ph i t => simp [timingOk, ih, Bool.and_assoc]
    | profile i a g => simpa [timingOk] using ih

/-- C6: every profiling-phase launch passes `StreamConfig{nullptr, true}`
(timing enabled) and every production-phase launch passes
`StreamConfig{nullptr, false}` (timing disabled): in the full trace,
`timingEnabled` holds exactly on profiling-phase launches. -/
theorem launch_timing_modes (cs : List Candidate) :
    timingOk (mainRun cs).2.1 = true := by
  have htr : (mainRun cs).2.1 = (selLoop numBytes cs 0 initState).2 ++
      execPhase cs (selLoop numBytes cs 0 initState).1 := rfl
  rw [htr, timingOk_append, selLoop_timingOk, execPhase_timingOk]
  rfl

/-- C7: selection is deterministic — two runs of the whole
selection-and-execute cycle on the same candidate list (same support
verdicts, same measured times) agree on the best candidate index, best name
and best time. -/
theorem selection_deterministic (cs : List Candidate)
    (r1 r2 : SelState × List Event × Int)
    (h1 : r1 = mainRun cs) (h2 : r2 = mainRun cs) :
    r1.1.best_op_id = r2.1.best_op_id ∧
    r1.1.best_op_name = r2.1.best_op_name ∧
    r1.1.best_ave_time = r2.1.best_ave_time := by
  subst h1; subst h2
  exact ⟨rfl, rfl, rfl⟩

/-- Witness for C7 at the three-candidate demo list. -/
theorem selection_deterministic_witness :
    (mainRun demoCandidates = mainRun demoCandidates) ∧
    ((mainRun demoCandidates).1.best_op_id =
        (mainRun demoCandidates).1.best_op_id ∧
      (mainRun demoCandidates).1.best_op_name =
        (mainRun demoCandidates).1.best_op_name ∧
      (mainRun demoCandidates).1.best_ave_time =
        (mainRun demoCandidates).1.best_ave_time) :=
  ⟨rfl, selection_deterministic demoCandidates _ _ rfl rfl⟩

end BatchnormInfer

namespace BatchnormInfer

/-- C2 counterexample: one candidate, supported at profiling, whose
production re-check fails.  The complete event trace ends with the failed
production check — no production launch follows, but no error is raised
either: the process exits with code 0.  The claimed fatal
SelectionExecutionMismatch report does not exist in the program. -/
theorem mismatch_silent_counterexample :
    (mainRun mismatchCandidates).1.found = true ∧
    (mainRun mismatchCandidates).2.1 =
      [Event.check Phase.profiling 0 true,
        Event.launch Phase.profiling 0 true,
        Event.profile 0 2 (numBytes / 1000000 / 2),
        Event.check Phase.production 0 false] ∧
    (mainRun mismatchCandidates).2.2 = 0 := by
  refine ⟨?_, ?_, rfl⟩
  · norm_num [mainRun, selLoop, mismatchCandidates, initState, fltMax]
  · norm_num [mainRun, selLoop, execPhase, mismatchCandidates, initState,
      fltMax]

lemma noProductionLaunch_append (a b : List Event) :
    noProductionLaunch (a ++ b) =
      (noProductionLaunch a && noProductionLaunch b) := by
  induction a with
  | nil => simp [noProductionLaunch]
  | cons e rest ih =>
    cases e with
    | check ph i v => simpa [noProductionLaunch] using ih
    | launch ph i t =>
      cases ph with
      | profiling => simpa [noProductionLaunch] using ih
      | production => simp [noProductionLaunch]
    | profile i a g => simpa [noProductionLaunch] using ih

lemma selLoop_noProductionLaunch (nb : ℚ) (cs : List Candidate) :
    ∀ (i : Nat) (s : SelState),
      noProductionLaunch (selLoop nb cs i s).2 = true := by
  induction cs with
  | nil => intro i s; rfl
  | cons c0 cs ih =>
    intro i s
    by_cases hc : c0.sup1 = true
    · simpa [selLoop, hc, noProductionLaunch] using ih (i + 1) _
    · simpa [selLoop, hc, noProductionLaunch] using ih (i + 1) s

/-- C2 amended: when the production-phase re-check fails for the selected
best candidate, production `Run` is never called, but the failure is a
silent skip: no error is raised and the program exits with code 0. -/
theorem mismatch_skips_silently (cs : List Candidate) (c : Candidate)
    (hf : (mainRun cs).1.found = true)
    (hg : cs.get? (mainRun cs).1.best_op_id.toNat = some c)
    (hs2 : c.sup2 = false) :
    noProductionLaunch (mainRun cs).2.1 = true ∧ (mainRun cs).2.2 = 0 := by
  have hm : (mainRun cs).1 = (selLoop numBytes cs 0 initState).1 := rfl
  have hexec : execPhase cs (mainRun cs).1 =
      [Event.check Phase.production (mainRun cs).1.best_op_id.toNat false] := by
    unfold execPhase
    rw [if_pos hf, hg]
    simp [hs2]
  have htr : (mainRun cs).2.1 = (selLoop numBytes cs 0 initState).2 ++
      execPhase cs (mainRun cs).1 := rfl
  rw [htr, noProductionLaunch_append, hexec, selLoop_noProductionLaunch]
  exact ⟨rfl, rfl⟩

/-- Witness for the amended C2 at `mismatchCandidates`. -/
theorem mismatch_skips_silently_witness :
    (mainRun mismatchCandidates).1.found = true ∧
    mismatchCandidates.get? (mainRun mismatchCandidates).1.best_op_id.toNat =
      some { name := "op0", sup1 := true, sup2 := false, time := 2 } ∧
    (noProductionLaunch (mainRun mismatchCandidates).2.1 = true ∧
      (mainRun mismatchCandidates).2.2 = 0) := by
  have hf : (mainRun mismatchCandidates).1.found = true := by
    norm_num [mainRun, selLoop, mismatchCandidates, initState, fltMax]
  have hg : mismatchCandidates.get?
      (mainRun mismatchCandidates).1.best_op_id.toNat =
      some { name := "op0", sup1 := true, sup2 := false, time := 2 } := by
    norm_num [mainRun, selLoop, mismatchCandidates, initState, fltMax]
  exact ⟨hf, hg,
    mismatch_skips_silently mismatchCandidates _ hf hg rfl⟩

/-- C5 counterexample: candidate 0's profiling `Run` raises LaunchFailure
while candidate 1 is supported and would succeed in 1 ms.  The loop result
is the propagated failure: no selection state is produced at all, so the
failing candidate is not skipped and the loop does not continue with the
remaining candidates. -/
theorem launch_failure_aborts_counterexample :
    selLoopE numBytes launchFailCandidates 0 initState =
      Except.error () := rfl

/-- C5 amended: the profiling loop wraps `Run` in no handler, so the first
LaunchFailure raised by a supported candidate propagates out of the loop:
whatever candidates follow, the loop's outcome is that failure, and the
remaining candidates are never profiled. -/
theorem launch_failure_propagates (pre : List CandidateE) (c : CandidateE)
    (post : List CandidateE)
    (hpre : ∀ c' ∈ pre, c'.sup1 = true → c'.runResult ≠ Except.error ())
    (hc : c.sup1 = true) (he : c.runResult = Except.error ()) :
    ∀ (i : Nat) (s : SelState),
      selLoopE numBytes (pre ++ c :: post) i s = Except.error () := by
  induction pre with
  | nil =>
    intro i s
    simp [selLoopE, hc, he]
  | cons c0 pre ih =>
    intro i s
    have hrec := ih (fun c' h' => hpre c' (by simp [h'])) (i + 1)
    by_cases hc0 : c0.sup1 = true
    · have hok : c0.runResult ≠ Except.error () := hpre c0 (by simp) hc0
      cases hr : c0.runResult with
      | error e =>
        cases e
        exact absurd hr hok
      | ok ave =>
        simp [selLoopE, hc0, hr, hrec]
    · simp [selLoopE, hc0, hrec]

/-- Witness for the amended C5 at `launchFailCandidates`. -/
theorem launch_failure_propagates_witness :
    (∀ c' ∈ ([] : List CandidateE), c'.sup1 = true →
      c'.runResult ≠ Except.error ()) ∧
    selLoopE numBytes
        ([] ++ CandidateE.mk "op0" true (Except.error ()) ::
          [CandidateE.mk "op1" true (Except.ok 1)]) 0 initState =
      Except.error () := by
  have hpre : ∀ c' ∈ ([] : List CandidateE), c'.sup1 = true →
      c'.runResult ≠ Except.error () := by simp
  exact ⟨hpre, launch_failure_propagates [] _ _ hpre rfl rfl 0 initState⟩

end BatchnormInfer

namespace BatchnormInfer

lemma selLoop_profile_events (nb : ℚ) (cs : List Candidate) :
    ∀ (i : Nat) (s : SelState) (i' : Nat) (ave gb : ℚ),
      Event.profile i' ave gb ∈ (selLoop nb cs i s).2 →
      gb = nb / 1000000 / ave := by
  induction cs with
  | nil => intro i s i' ave gb h; simp [selLoop] at h
  | cons c0 cs ih =>
    intro i s i' ave gb h
    by_cases hc : c0.sup1 = true
    · simp [selLoop, hc] at h
      rcases h with ⟨_, ha, hg⟩ | h
      · rw [hg, ha]
      · exact ih (i + 1) _ i' ave gb h
    · simp [selLoop, hc] at h
      exact ih (i + 1) s i' ave gb h

lemma execPhase_no_profile (cs : List Candidate) (s : SelState)
    (i : Nat) (ave gb : ℚ) : Event.profile i ave gb ∉ execPhase cs s := by
  unfold execPhase
  by_cases hf : s.found = true
  · rw [if_pos hf]
    cases cs.get? s.best_op_id.toNat with
    | none => simp
    | some c =>
      by_cases hs2 : c.sup2 = true
      · simp [hs2]
      · simp [hs2]
  · rw [if_neg hf]; simp

/-- C8: every profile record emitted during selection carries the derived
throughput `num_bytes / 1.E6 / ave_time`, which equals
`bytesMoved / (10^6 * elapsed)`; the best candidate's reported throughput is
the one computed from the best candidate's own elapsed time; and `num_bytes`
is `numXYElement * (sizeof(XDataType) + sizeof(YDataType)) +
numScaleBiasMeanVarElement * (sizeof(ScaleDataType) + sizeof(BiasDataType) +
2 * sizeof(MeanVarDataType))`. -/
theorem throughput_formula (cs : List Candidate) :
    (∀ (i : Nat) (ave gb : ℚ), Event.profile i ave gb ∈ (mainRun cs).2.1 →
      gb = numBytes / (10 ^ 6 * ave)) ∧
    ((mainRun cs).1.found = true →
      (mainRun cs).1.best_gb_per_sec =
        numBytes / (10 ^ 6 * (mainRun cs).1.best_ave_time)) ∧
    numBytes = ((numXYElement * (sizeofXDataType + sizeofYDataType) +
      numScaleBiasMeanVarElement * (sizeofScaleDataType + sizeofBiasDataType +
        2 * sizeofMeanVarDataType) : Int) : ℚ) := by
  have hdd : ∀ ave : ℚ,
      numBytes / 1000000 / ave = numBytes / (10 ^ 6 * ave) := by
    intro ave
    rw [div_div]
    norm_num
  refine ⟨?_, ?_, ?_⟩
  · intro i ave gb h
    have htr : (mainRun cs).2.1 = (selLoop numBytes cs 0 initState).2 ++
        execPhase cs (selLoop numBytes cs 0 initState).1 := rfl
    rw [htr, List.mem_append] at h
    rcases h with h | h
    · rw [selLoop_profile_events numBytes cs 0 initState i ave gb h]
      exact hdd ave
    · exact absurd h (execPhase_no_profile cs _ i ave gb)
  · intro hf
    have hm : (mainRun cs).1 = (selLoop numBytes cs 0 initState).1 := rfl
    rcases selLoop_characterization numBytes cs 0 initState with
      ⟨heq, _⟩ | ⟨j, c, _, _, _, _, _, ht, _, hg, _, _⟩
    · rw [hm, heq] at hf
      exact absurd hf (by simp [initState])
    · rw [hm, ht, hg]
      exact hdd c.time
  · norm_num [numBytes, numXYElement, numScaleBiasMeanVarElement,
      xyLengths, scaleBiasMeanVarLengths, sizeofXDataType, sizeofYDataType,
      sizeofScaleDataType, sizeofBiasDataType, sizeofMeanVarDataType]

/-- Witness for C8 at the demo list: the profile record of candidate 1 and
the best-candidate throughput. -/
theorem throughput_formula_witness :
    Event.profile 1 (16 / 5) (numBytes / 1000000 / (16 / 5)) ∈
      (mainRun demoCandidates).2.1 ∧
    numBytes / 1000000 / (16 / 5) = numBytes / (10 ^ 6 * (16 / 5)) ∧
    (mainRun demoCandidates).1.found = true ∧
    (mainRun demoCandidates).1.best_gb_per_sec =
      numBytes / (10 ^ 6 * (mainRun demoCandidates).1.best_ave_time) := by
  have hmem : Event.profile 1 (16 / 5) (numBytes / 1000000 / (16 / 5)) ∈
      (mainRun demoCandidates).2.1 := by
    norm_num [mainRun, selLoop, execPhase, demoCandidates, initState, fltMax]
  have hf : (mainRun demoCandidates).1.found = true := by
    norm_num [mainRun, selLoop, demoCandidates, initState, fltMax]
  exact ⟨hmem, (throughput_formula demoCandidates).1 1 (16 / 5) _ hmem, hf,
    (throughput_formula demoCandidates).2.1 hf⟩

/-- C9: the Argument rebuilt in the execution phase coincides, field by
field, with the Argument built in the profiling loop: same lengths, same
input and output strides, same buffer handles, same epsilon. -/
theorem arguments_coincide (b : DeviceBuffers) :
    profilingArgument b = executionArgument b := rfl

lemma applyInvariantDims_not_mem (ds : List Nat) :
    ∀ (ss acc : List Int) (d : Nat), d ∉ ds →
      (applyInvariantDims ds ss acc).get? d = acc.get? d := by
  induction ds with
  | nil => intro ss acc d _; cases ss <;> rfl
  | cons d0 ds ih =>
    intro ss acc d hd
    cases ss with
    | nil => rfl
    | cons s0 ss =>
      have hne : d0 ≠ d := fun h => hd (by simp [h])
      have hstep : applyInvariantDims (d0 :: ds) (s0 :: ss) acc =
          applyInvariantDims ds ss (acc.set d0 s0) := rfl
      rw [hstep, ih ss (acc.set d0 s0) d (fun h => hd (by simp [h]))]
      simp [List.get?_eq_getElem?, List.getElem?_set_ne hne]

lemma applyInvariantDims_get (ds : List Nat) :
    ∀ (ss acc : List Int) (j d : Nat), ds.Nodup →
      ds.get? j = some d → d < acc.length → ss.length = ds.length →
      (applyInvariantDims ds ss acc).get? d = ss.get? j := by
  induction ds with
  | nil => intro ss acc j d _ hj; simp at hj
  | cons d0 ds ih =>
    intro ss acc j d hnd hj hd hlen
    cases ss with
    | nil => simp at hlen
    | cons s0 ss =>
      have hstep : applyInvariantDims (d0 :: ds) (s0 :: ss) acc =
          applyInvariantDims ds ss (acc.set d0 s0) := rfl
      cases j with
      | zero =>
        have hd0 : d0 = d := by simpa using hj
        subst hd0
        have hnotin : d0 ∉ ds := (List.nodup_cons.mp hnd).1
        rw [hstep, applyInvariantDims_not_mem ds ss (acc.set d0 s0) d0 hnotin]
        simp [List.get?_eq_getElem?, List.getElem?_set_self',
          List.getElem?_eq_getElem hd]
      | succ j' =>
        have hj' : ds.get? j' = some d := hj
        have hnd' : ds.Nodup := (List.nodup_cons.mp hnd).2
        have hd' : d < (acc.set d0 s0).length := by
          rw [List.length_set]; exact hd
        have hlen' : ss.length = ds.length := by
          simpa using hlen
        rw [hstep, ih ss (acc.set d0 s0) j' d hnd' hj' hd' hlen']
        rfl

/-- C10: the aligned stride array is built from the all-zero array of rank
4 by writing, for the dimension listed at each position of `invariantDims`,
the corresponding entry of the scale/bias/mean/var stride array; every
dimension not listed in `invariantDims` (the reduce dimensions) keeps
stride 0. -/
theorem aligned_strides_broadcast (invDims : List Nat) (strides : List Int)
    (hnd : invDims.Nodup) (hlt : ∀ d ∈ invDims, d < 4)
    (hlen : strides.length = invDims.length) :
    (∀ (j d : Nat), invDims.get? j = some d →
      (alignedStridesOf invDims strides).get? d = strides.get? j) ∧
    (∀ d : Nat, d < 4 → d ∉ invDims →
      (alignedStridesOf invDims strides).get? d = some 0) := by
  constructor
  · intro j d hj
    have hdmem : d ∈ invDims := List.get?_mem hj
    have hd4 : d < (List.replicate 4 (0 : Int)).length := by
      simpa using hlt d hdmem
    exact applyInvariantDims_get invDims strides (List.replicate 4 0) j d
      hnd hj hd4 hlen
  · intro d hd4 hdnot
    rw [alignedStridesOf,
      applyInvariantDims_not_mem invDims strides (List.replicate 4 0) d hdnot]
    simp only [List.get?_eq_getElem?, List.getElem?_replicate, if_pos hd4]

/-- Witness for C10 at the program's values `invariantDims = {3}`,
`scaleBiasMeanVarStrides = {1}`: dimension 3 gets stride 1, the reduce
dimensions 0, 1, 2 get stride 0, i.e. the aligned array is [0, 0, 0, 1]. -/
theorem aligned_strides_broadcast_witness :
    invariantDims.Nodup ∧ (∀ d ∈ invariantDims, d < 4) ∧
    scaleBiasMeanVarStrides.length = invariantDims.length ∧
    aligned_scaleBiasMeanVarStrides.get? 3 = scaleBiasMeanVarStrides.get? 0 ∧
    aligned_scaleBiasMeanVarStrides.get? 0 = some 0 ∧
    aligned_scaleBiasMeanVarStrides = [0, 0, 0, 1] := by
  have hnd : invariantDims.Nodup := by simp [invariantDims]
  have hlt : ∀ d ∈ invariantDims, d < 4 := by
    intro d hd
    simp [invariantDims] at hd
    omega
  have hlen : scaleBiasMeanVarStrides.length = invariantDims.length := rfl
  have h := aligned_strides_broadcast invariantDims scaleBiasMeanVarStrides
    hnd hlt hlen
  refine ⟨hnd, hlt, hlen, h.1 0 3 rfl, h.2 0 (by omega) (by simp [invariantDims]),
    rfl⟩

end BatchnormInfer
